import Mathlib

/-
Verification of the solar-system GCP data pipeline (fetch_data.py, load_data.py).

The embedding models the two scripts over explicit inputs:
* an HTTP response is a pair of a status code and a body text,
* text (file content, response bodies, Python strings) is a list of Unicode
  code points (`PyStr := List Nat`), matching Python's string model,
* the filesystem is a map from path to optional file content,
* Python's `json.dump(..., indent=2)` and `json.load` are modelled by an
  executable pretty-printer (`jdump`) and a fuelled recursive-descent
  reader (`json_loads`), faithful to CPython's `json` module on the value
  domain the pipeline exercises (numbers are modelled as integers),
* exceptions are modelled with `Except PyError`,
* the BigQuery client is an external collaborator; its job outcome is a
  parameter (an oracle), except where the spec fixes its behaviour.
-/

/-- A Python string: a sequence of Unicode code points. -/
abbrev PyStr := List Nat

/-- Code points of a Lean string literal, for writing concrete `PyStr` values. -/
def strCodes (s : String) : PyStr := s.data.map Char.toNat

/-- A JSON value as produced by `json.load` / consumed by `json.dump`.
Numbers are restricted to integers (the pipeline's data model; no floats). -/
inductive Json where
  | null
  | bool (b : Bool)
  | num (n : Int)
  | str (s : PyStr)
  | arr (elems : List Json)
  | obj (members : List (PyStr × Json))

/-! Lexing helpers shared by the reader. -/

/-- Whitespace accepted by CPython's json scanner: space, tab, newline, return. -/
def wsCode (c : Nat) : Bool := c = 32 || c = 9 || c = 10 || c = 13

/-- Drop leading JSON whitespace. -/
def skipWs : List Nat → List Nat
  | [] => []
  | c :: r => if wsCode c then skipWs r else c :: r

/-- Code of a decimal digit? -/
def digitCode (c : Nat) : Bool := 48 ≤ c && c ≤ 57

/-- Split off the maximal leading run of decimal digits. -/
def takeDigs : List Nat → List Nat × List Nat
  | [] => ([], [])
  | c :: r =>
    if digitCode c then
      ((takeDigs r).1.cons c, (takeDigs r).2)
    else ([], c :: r)

/-- Numeric value of a digit-code run, most significant first. -/
def digsVal (ds : List Nat) : Nat := ds.foldl (fun a c => a * 10 + (c - 48)) 0

/-- Value of one hexadecimal digit code (both cases), as the json reader accepts. -/
def hexVal (c : Nat) : Option Nat :=
  if 48 ≤ c ∧ c ≤ 57 then some (c - 48)
  else if 97 ≤ c ∧ c ≤ 102 then some (c - 87)
  else if 65 ≤ c ∧ c ≤ 70 then some (c - 55)
  else none

/-- Value of a four-digit hex escape body. -/
def hexQuad (a b c d : Nat) : Option Nat :=
  match hexVal a, hexVal b, hexVal c, hexVal d with
  | some va, some vb, some vc, some vd => some (((va * 16 + vb) * 16 + vc) * 16 + vd)
  | _, _, _, _ => none

/-- Low-surrogate escape at the head of the input, if present: CPython joins a
high surrogate with an immediately following `\uDC00`–`\uDFFF` escape. -/
def lowSurrogate : List Nat → Option (Nat × List Nat)
  | 92 :: 117 :: a :: b :: c :: d :: r =>
    (hexQuad a b c d).bind (fun l => if 56320 ≤ l ∧ l < 57344 then some (l, r) else none)
  | _ => none

/-- Prepend a decoded code point to a string-reader result. -/
def strCons (c : Nat) : Option (PyStr × List Nat) → Option (PyStr × List Nat)
  | some (s, r) => some (c :: s, r)
  | none => none

/-- Dispatch on the character after a backslash, continuing the string read
with `rec`: the short escapes, or a `\uXXXX` escape (joining a surrogate
pair when a high surrogate is followed by a low one, keeping lone
surrogates, as CPython does). -/
def escStep (rec : List Nat → Option (PyStr × List Nat)) :
    List Nat → Option (PyStr × List Nat)
  | 34 :: r2 => strCons 34 (rec r2)
  | 92 :: r2 => strCons 92 (rec r2)
  | 47 :: r2 => strCons 47 (rec r2)
  | 98 :: r2 => strCons 8 (rec r2)
  | 102 :: r2 => strCons 12 (rec r2)
  | 110 :: r2 => strCons 10 (rec r2)
  | 114 :: r2 => strCons 13 (rec r2)
  | 116 :: r2 => strCons 9 (rec r2)
  | 117 :: a :: b :: cc :: d :: r2 =>
    (hexQuad a b cc d).bind (fun h =>
      if 55296 ≤ h ∧ h < 56320 then
        (lowSurrogate r2).elim (strCons h (rec r2))
          (fun p => strCons (65536 + (h - 55296) * 1024 + (p.1 - 56320)) (rec p.2))
      else strCons h (rec r2))
  | _ => none

/-- Read the body of a JSON string after the opening quote, undoing escapes,
as CPython's `scanstring` does in strict mode (raw control characters are
rejected; surrogate pairs in `\u` escapes are joined; a lone surrogate escape
is kept as-is).  Fuelled; one unit of fuel per decoded code point. -/
def jstring : Nat → List Nat → Option (PyStr × List Nat)
  | 0, _ => none
  | _ + 1, [] => none
  | f + 1, c :: r =>
    if c = 34 then some ([], r)
    else if c = 92 then escStep (jstring f) r
    else if c < 32 then none
    else strCons c (jstring f r)

/-! The fuelled JSON value reader, modelling `json.load`. -/

mutual
/-- Read one JSON value (leading whitespace allowed), as CPython's scanner. -/
def parseValue : Nat → List Nat → Option (Json × List Nat)
  | 0, _ => none
  | f + 1, s =>
    match skipWs s with
    | 110 :: 117 :: 108 :: 108 :: r => some (Json.null, r)
    | 116 :: 114 :: 117 :: 101 :: r => some (Json.bool true, r)
    | 102 :: 97 :: 108 :: 115 :: 101 :: r => some (Json.bool false, r)
    | 34 :: r => Option.map (fun p => (Json.str p.1, p.2)) (jstring f r)
    | 91 :: r =>
      (match skipWs r with
       | [] => none
       | c :: r2 =>
         if c = 93 then some (Json.arr [], r2)
         else Option.map (fun p => (Json.arr p.1, p.2)) (jelems f (c :: r2)))
    | 123 :: r =>
      (match skipWs r with
       | [] => none
       | c :: r2 =>
         if c = 125 then some (Json.obj [], r2)
         else Option.map (fun p => (Json.obj p.1, p.2)) (jmembers f (c :: r2)))
    | 45 :: r =>
      (match takeDigs r with
       | ([], _) => none
       | (ds, r2) => some (Json.num (-(digsVal ds : Int)), r2))
    | c :: r =>
      if digitCode c then
        some (Json.num (digsVal (takeDigs (c :: r)).1), (takeDigs (c :: r)).2)
      else none
    | [] => none

/-- Read one-or-more comma-separated array elements up to the closing `]`. -/
def jelems : Nat → List Nat → Option (List Json × List Nat)
  | 0, _ => none
  | f + 1, s =>
    match parseValue f s with
    | none => none
    | some (v, r) =>
      match skipWs r with
      | [] => none
      | c :: r2 =>
        if c = 44 then
          match jelems f r2 with
          | some (vs, r3) => some (v :: vs, r3)
          | none => none
        else if c = 93 then some ([v], r2)
        else none

/-- Read one-or-more `"key": value` object members up to the closing brace. -/
def jmembers : Nat → List Nat → Option (List (PyStr × Json) × List Nat)
  | 0, _ => none
  | f + 1, s =>
    match skipWs s with
    | [] => none
    | c :: r =>
      if c = 34 then
        match jstring f r with
        | none => none
        | some (k, r1) =>
          match skipWs r1 with
          | [] => none
          | c2 :: r2 =>
            if c2 = 58 then
              match parseValue f r2 with
              | none => none
              | some (v, r3) =>
                match skipWs r3 with
                | [] => none
                | c3 :: r4 =>
                  if c3 = 44 then
                    match jmembers f r4 with
                    | some (ms, r5) => some ((k, v) :: ms, r5)
                    | none => none
                  else if c3 = 125 then some ([(k, v)], r4)
                  else none
            else none
      else none
end

/-- Python's `json.load` on file content: one value, then only whitespace. -/
def json_loads (s : List Nat) : Option Json :=
  match parseValue (s.length + 1) s with
  | some (v, r) => if skipWs r = [] then some v else none
  | none => none

/-! The writer, modelling `json.dump(obj, f, indent=2)`. -/

/-- Lowercase hex digit code, as `%04x` formatting uses. -/
def hexDigit (d : Nat) : Nat := if d < 10 then 48 + d else 87 + d

/-- Four-digit lowercase hex escape body of `n < 0x10000`. -/
def hexFour (n : Nat) : List Nat :=
  [hexDigit (n / 4096), hexDigit (n / 256 % 16), hexDigit (n / 16 % 16), hexDigit (n % 16)]

/-- Escape one code point as CPython's `ensure_ascii` string encoder does:
short escapes for the two specials and the five named controls, `\u00XX` for
other controls, the character itself for printable ASCII, `\uXXXX` for other
BMP code points, and a surrogate pair of escapes for astral code points. -/
def escCode (c : Nat) : List Nat :=
  if c = 34 then [92, 34]
  else if c = 92 then [92, 92]
  else if c = 8 then [92, 98]
  else if c = 9 then [92, 116]
  else if c = 10 then [92, 110]
  else if c = 12 then [92, 102]
  else if c = 13 then [92, 114]
  else if c < 32 then 92 :: 117 :: hexFour c
  else if c < 127 then [c]
  else if c < 65536 then 92 :: 117 :: hexFour c
  else
    92 :: 117 :: hexFour (55296 + (c - 65536) / 1024) ++
      (92 :: 117 :: hexFour (56320 + (c - 65536) % 1024))

/-- Escaped body of a string. -/
def escStr (s : PyStr) : List Nat := s.flatMap escCode

/-- A string rendered with its quotes. -/
def strDump (s : PyStr) : List Nat := 34 :: (escStr s ++ [34])

/-- Decimal digit codes of a natural number, most significant first. -/
def natDigs (n : Nat) : List Nat :=
  if n < 10 then [48 + n]
  else natDigs (n / 10) ++ [48 + n % 10]
termination_by n
decreasing_by exact Nat.div_lt_self (by omega) (by omega)

/-- An integer as `json.dump` prints it: optional minus sign, then digits. -/
def intDump (i : Int) : List Nat :=
  if i < 0 then 45 :: natDigs i.natAbs else natDigs i.natAbs

/-- Newline followed by the indentation of nesting level `lvl` (two spaces per
level), as `indent=2` separates items. -/
def nlInd (lvl : Nat) : List Nat := 10 :: List.replicate (2 * lvl) 32

mutual
/-- Render a value at nesting level `lvl` exactly as `json.dump(v, f, indent=2)`
writes it: empty containers inline, non-empty ones one item per line. -/
def jdump : Json → Nat → List Nat
  | Json.null, _ => [110, 117, 108, 108]
  | Json.bool true, _ => [116, 114, 117, 101]
  | Json.bool false, _ => [102, 97, 108, 115, 101]
  | Json.num i, _ => intDump i
  | Json.str s, _ => strDump s
  | Json.arr [], _ => [91, 93]
  | Json.arr (x :: xs), lvl =>
    91 :: (nlInd (lvl + 1) ++ dumpItems (x :: xs) (lvl + 1) ++ nlInd lvl ++ [93])
  | Json.obj [], _ => [123, 125]
  | Json.obj (m :: ms), lvl =>
    123 :: (nlInd (lvl + 1) ++ dumpMembers (m :: ms) (lvl + 1) ++ nlInd lvl ++ [125])

/-- Comma-and-newline separated array items at one level. -/
def dumpItems : List Json → Nat → List Nat
  | [], _ => []
  | [x], lvl => jdump x lvl
  | x :: y :: xs, lvl => jdump x lvl ++ 44 :: (nlInd lvl ++ dumpItems (y :: xs) lvl)

/-- Comma-and-newline separated `"key": value` members at one level. -/
def dumpMembers : List (PyStr × Json) → Nat → List Nat
  | [], _ => []
  | [(k, v)], lvl => strDump k ++ 58 :: 32 :: jdump v lvl
  | (k, v) :: m :: ms, lvl =>
    strDump k ++ 58 :: 32 :: (jdump v lvl ++ 44 :: (nlInd lvl ++ dumpMembers (m :: ms) lvl))
end

/-! Well-formedness: the value domain Python strings can actually carry. -/

/-- A code point a Python string produced by the pipeline can hold: a Unicode
scalar value (no lone surrogates, below 0x110000). -/
def wfCode (c : Nat) : Bool := decide (c < 1114112) && (decide (c < 55296) || decide (57344 ≤ c))

/-- All code points of a string are scalar values. -/
def wfStr (s : PyStr) : Bool := s.all wfCode

mutual
/-- Every string (value or key) in the tree is a scalar-value string. -/
def wfJson : Json → Bool
  | Json.null => true
  | Json.bool _ => true
  | Json.num _ => true
  | Json.str s => wfStr s
  | Json.arr xs => wfElems xs
  | Json.obj ms => wfMems ms

/-- Well-formedness of every element. -/
def wfElems : List Json → Bool
  | [] => true
  | x :: xs => wfJson x && wfElems xs

/-- Well-formedness of every member key and value. -/
def wfMems : List (PyStr × Json) → Bool
  | [] => true
  | (k, v) :: ms => wfStr k && wfJson v && wfMems ms
end

mutual
/-- Fuel sufficient for the reader to consume a rendered value. -/
def jsize : Json → Nat
  | Json.null => 1
  | Json.bool _ => 1
  | Json.num _ => 1
  | Json.str s => s.length + 2
  | Json.arr xs => 1 + elemsSize xs
  | Json.obj ms => 1 + memsSize ms

/-- Fuel sufficient for `jelems` on a rendered item list. -/
def elemsSize : List Json → Nat
  | [] => 1
  | x :: xs => 1 + jsize x + elemsSize xs

/-- Fuel sufficient for `jmembers` on a rendered member list. -/
def memsSize : List (PyStr × Json) → Nat
  | [] => 1
  | (k, v) :: ms => 2 + k.length + jsize v + memsSize ms
end

/-! The data model of fetch_data.py: pandas DataFrames as used by the script. -/

/-- A pandas DataFrame as `pd.DataFrame(data, columns=fields)` builds it from
the API's variant-B payload: named columns and rows of JSON values.  The model
assumes the payload is rectangular (the API's actual shape); the claims never
exercise ragged data. -/
structure DataFrame where
  fields : List PyStr
  rows : List (List Json)

/-- Python's `df.to_dict(orient='records')`: one dict per row, keyed by the
columns in order. -/
def DataFrame.to_dict_records (df : DataFrame) : List Json :=
  df.rows.map (fun r => Json.obj (df.fields.zip r))

/-- The filesystem: a map from path to the content of the file there, if any. -/
def FS : Type := String → Option (List Nat)

/-- The empty filesystem. -/
def emptyFS : FS := fun _ => none

/-- fetch_data.py's `save_to_json(data, filename)`: opens `filename` for
writing (truncating whatever was there) and writes
`json.dump(data.to_dict(orient='records'), f, indent=2)`. -/
def save_to_json (data : DataFrame) (filename : String) (fs : FS) : FS :=
  fun p => if p = filename then some (jdump (Json.arr data.to_dict_records) 0) else fs p

/-! Exceptions and HTTP responses. -/

/-- The Python exceptions the scripts can raise. -/
inductive PyError where
  | jsonDecodeError
  | keyError
  | typeError
  | fileNotFoundError
  | loadJobError
deriving Repr, DecidableEq

/-- An HTTP response as the `requests` call returns it: a status code and a
body text.  The network is abstracted: each fetcher takes the response its
GET produced. -/
structure HttpResponse where
  status_code : Nat
  text : List Nat

/-- Python's `response.json()`: parse the body, raising JSONDecodeError on
malformed JSON. -/
def response_json (resp : HttpResponse) : Except PyError Json :=
  match json_loads resp.text with
  | some v => Except.ok v
  | none => Except.error PyError.jsonDecodeError

/-- Lookup in a dict built by `json.load` from an object literal: the last
binding of a repeated key wins, as in CPython. -/
def pyDictGet (ms : List (PyStr × Json)) (k : PyStr) : Option Json :=
  match ms with
  | [] => none
  | (k2, v) :: rest =>
    match pyDictGet rest k with
    | some v2 => some v2
    | none => if k2 = k then some v else none

/-- Python's `data[key]` on a parsed JSON value: KeyError when the dict lacks
the key, TypeError when the value is not a dict. -/
def pyItem (j : Json) (key : String) : Except PyError Json :=
  match j with
  | Json.obj ms =>
    (match pyDictGet ms (strCodes key) with
     | some v => Except.ok v
     | none => Except.error PyError.keyError)
  | _ => Except.error PyError.typeError

/-- One JSON value as a row (the variant-B `data` entries are arrays). -/
def asRow : Json → Except PyError (List Json)
  | Json.arr r => Except.ok r
  | _ => Except.error PyError.typeError

/-- One JSON value as a column name (the variant-B `fields` entries are
strings). -/
def asField : Json → Except PyError PyStr
  | Json.str s => Except.ok s
  | _ => Except.error PyError.typeError

/-- Every entry as a row, failing on the first non-array entry. -/
def asRows : List Json → Except PyError (List (List Json))
  | [] => Except.ok []
  | j :: rest =>
    match asRow j, asRows rest with
    | Except.ok r, Except.ok rs => Except.ok (r :: rs)
    | Except.error e, _ => Except.error e
    | _, Except.error e => Except.error e

/-- Every entry as a column name, failing on the first non-string entry. -/
def asFields : List Json → Except PyError (List PyStr)
  | [] => Except.ok []
  | j :: rest =>
    match asField j, asFields rest with
    | Except.ok s, Except.ok ss => Except.ok (s :: ss)
    | Except.error e, _ => Except.error e
    | _, Except.error e => Except.error e

/-- `pd.DataFrame(data, columns=fields)` on the parsed payload entries:
`data` must be an array of row arrays and `fields` an array of names. -/
def pd_DataFrame (data fields : Json) : Except PyError DataFrame :=
  match asRow data, asRow fields with
  | Except.ok ds, Except.ok fsj =>
    (match asRows ds, asFields fsj with
     | Except.ok rows, Except.ok cols => Except.ok ⟨cols, rows⟩
     | Except.error e, _ => Except.error e
     | _, Except.error e => Except.error e)
  | Except.error e, _ => Except.error e
  | _, Except.error e => Except.error e

/-- fetch_data.py's `fetch_planets()`, as a function of the response its GET
to the bodies endpoint produced: on status 200 it parses the body and builds
`pd.DataFrame(data['data'], columns=data['fields'])`; on any other status it
prints a diagnostic and returns `None`.  The `Except` layer carries the
exceptions `response.json()` or the subscripts can raise. -/
def fetch_planets (resp : HttpResponse) : Except PyError (Option DataFrame) :=
  if resp.status_code = 200 then
    match response_json resp with
    | Except.error e => Except.error e
    | Except.ok data =>
      match pyItem data "data", pyItem data "fields" with
      | Except.ok d, Except.ok f =>
        (match pd_DataFrame d f with
         | Except.ok df => Except.ok (some df)
         | Except.error e => Except.error e)
      | Except.error e, _ => Except.error e
      | _, Except.error e => Except.error e
  else Except.ok none

/-- fetch_data.py's `fetch_moons()`: identical record handling, against the
satellites endpoint's response. -/
def fetch_moons (resp : HttpResponse) : Except PyError (Option DataFrame) :=
  if resp.status_code = 200 then
    match response_json resp with
    | Except.error e => Except.error e
    | Except.ok data =>
      match pyItem data "data", pyItem data "fields" with
      | Except.ok d, Except.ok f =>
        (match pd_DataFrame d f with
         | Except.ok df => Except.ok (some df)
         | Except.error e => Except.error e)
      | Except.error e, _ => Except.error e
      | _, Except.error e => Except.error e
  else Except.ok none

/-! The two script entry points, instrumented with an event trace. -/

/-- Externally visible steps of one pipeline run, in order of occurrence. -/
inductive Event where
  | fetchPlanetsCall
  | fetchMoonsCall
  | savePlanetsFile
  | saveMoonsFile
  | openPlanetsFile
  | openMoonsFile
  | submitPlanetsJob
  | submitMoonsJob
deriving Repr, DecidableEq

/-- Outcome of running fetch_data.py's `main()`: the steps taken in order,
the resulting filesystem, and the uncaught exception if one aborted the run. -/
structure FetchRun where
  events : List Event
  fs : FS
  err : Option PyError

/-- fetch_data.py's `main()`: fetch planets, fetch moons, then save each
DataFrame that is not `None`.  An exception aborts the run where it occurs;
a `None` result merely skips that category's save. -/
def fetch_main (respP respM : HttpResponse) (fs0 : FS) : FetchRun :=
  match fetch_planets respP with
  | Except.error e => ⟨[Event.fetchPlanetsCall], fs0, some e⟩
  | Except.ok planets_df =>
    match fetch_moons respM with
    | Except.error e => ⟨[Event.fetchPlanetsCall, Event.fetchMoonsCall], fs0, some e⟩
    | Except.ok moons_df =>
      match planets_df, moons_df with
      | some dfP, some dfM =>
        ⟨[Event.fetchPlanetsCall, Event.fetchMoonsCall, Event.savePlanetsFile,
            Event.saveMoonsFile],
          save_to_json dfM "raw_moons.json" (save_to_json dfP "raw_planets.json" fs0), none⟩
      | some dfP, none =>
        ⟨[Event.fetchPlanetsCall, Event.fetchMoonsCall, Event.savePlanetsFile],
          save_to_json dfP "raw_planets.json" fs0, none⟩
      | none, some dfM =>
        ⟨[Event.fetchPlanetsCall, Event.fetchMoonsCall, Event.saveMoonsFile],
          save_to_json dfM "raw_moons.json" fs0, none⟩
      | none, none =>
        ⟨[Event.fetchPlanetsCall, Event.fetchMoonsCall], fs0, none⟩

/-- load_data.py's destination dataset. -/
def dataset_id : String := "solar-system-prod.Staging"

/-- load_data.py's planets table. -/
def planets_table_id : String := dataset_id ++ ".RawPlanet"

/-- load_data.py's moons table. -/
def moons_table_id : String := dataset_id ++ ".RawMoon"

/-- Outcome the warehouse reports for one load job, per row batch and table. -/
def WarehouseOracle : Type := List Json → String → Except PyError Unit

/-- Modelled from the spec: the BigQuery client (`client.load_table_from_json`
followed by `job.result()`) is an external collaborator not in this
repository.  Its terminal job state is an oracle parameter, except that the
spec's Scenario 4 fixes one point of its contract: a load of zero rows is a
no-op that reports success. -/
def bigquery_load (wh : WarehouseOracle) (rows : List Json) (table : String) :
    Except PyError Unit :=
  if rows.isEmpty then Except.ok () else wh rows table

/-- Outcome of running load_data.py: steps taken in order, the row batches
submitted to each table (if submission was reached), and the uncaught
exception if one aborted the run. -/
structure LoadRun where
  events : List Event
  planetsRows : Option (List Json)
  moonsRows : Option (List Json)
  err : Option PyError

/-- load_data.py's module-level script: open and `json.load` raw_planets.json,
then raw_moons.json, then submit the planets rows and wait, then the moons
rows and wait.  An exception at any step aborts the remaining steps. -/
def load_main (wh : WarehouseOracle) (fs : FS) : LoadRun :=
  match fs "raw_planets.json" with
  | none => ⟨[Event.openPlanetsFile], none, none, some PyError.fileNotFoundError⟩
  | some textP =>
    match json_loads textP with
    | none => ⟨[Event.openPlanetsFile], none, none, some PyError.jsonDecodeError⟩
    | some planets_data =>
      match fs "raw_moons.json" with
      | none =>
        ⟨[Event.openPlanetsFile, Event.openMoonsFile], none, none,
          some PyError.fileNotFoundError⟩
      | some textM =>
        match json_loads textM with
        | none =>
          ⟨[Event.openPlanetsFile, Event.openMoonsFile], none, none,
            some PyError.jsonDecodeError⟩
        | some moons_data =>
          match planets_data with
          | Json.arr prows =>
            (match bigquery_load wh prows planets_table_id with
             | Except.error e =>
               ⟨[Event.openPlanetsFile, Event.openMoonsFile, Event.submitPlanetsJob],
                 some prows, none, some e⟩
             | Except.ok () =>
               match moons_data with
               | Json.arr mrows =>
                 (match bigquery_load wh mrows moons_table_id with
                  | Except.error e =>
                    ⟨[Event.openPlanetsFile, Event.openMoonsFile, Event.submitPlanetsJob,
                        Event.submitMoonsJob], some prows, some mrows, some e⟩
                  | Except.ok () =>
                    ⟨[Event.openPlanetsFile, Event.openMoonsFile, Event.submitPlanetsJob,
                        Event.submitMoonsJob], some prows, some mrows, none⟩)
               | _ =>
                 ⟨[Event.openPlanetsFile, Event.openMoonsFile, Event.submitPlanetsJob],
                   some prows, none, some PyError.typeError⟩)
          | _ =>
            ⟨[Event.openPlanetsFile, Event.openMoonsFile], none, none,
              some PyError.typeError⟩

/-! Helper lemmas for the reader/writer round trip. -/

/-- Does the input not begin with a digit (so it cannot extend a number)? -/
def noDigitHead : List Nat → Bool
  | [] => true
  | c :: _ => !digitCode c

theorem skipWs_cons_of (c : Nat) (r : List Nat) (h : wsCode c = false) :
    skipWs (c :: r) = c :: r := by
  simp [skipWs, h]

theorem skipWs_replicate32 (n : Nat) (s : List Nat) :
    skipWs (List.replicate n 32 ++ s) = skipWs s := by
  induction n with
  | zero => simp
  | succ k ih => simpa [List.replicate_succ, skipWs, wsCode] using ih

theorem skipWs_nlInd (lvl : Nat) (s : List Nat) :
    skipWs (nlInd lvl ++ s) = skipWs s := by
  simp [nlInd, skipWs, wsCode, skipWs_replicate32]

theorem natDigs_digits (n : Nat) : ∀ c ∈ natDigs n, digitCode c = true := by
  induction n using Nat.strong_induction_on with
  | _ n ih =>
    rw [natDigs]
    split
    · intro c hc
      rw [List.mem_singleton] at hc
      subst hc
      simp only [digitCode, Bool.and_eq_true, decide_eq_true_eq]
      omega
    · intro c hc
      rw [List.mem_append] at hc
      rcases hc with hc | hc
      · exact ih (n / 10) (Nat.div_lt_self (by omega) (by omega)) c hc
      · rw [List.mem_singleton] at hc
        subst hc
        simp only [digitCode, Bool.and_eq_true, decide_eq_true_eq]
        omega

theorem natDigs_ne_nil (n : Nat) : natDigs n ≠ [] := by
  rw [natDigs]
  split
  · simp
  · simp

theorem natDigs_head (n : Nat) :
    ∃ c t, natDigs n = c :: t ∧ digitCode c = true := by
  match h : natDigs n with
  | [] => exact absurd h (natDigs_ne_nil n)
  | c :: t =>
    refine ⟨c, t, rfl, natDigs_digits n c ?_⟩
    rw [h]
    exact List.mem_cons_self c t

theorem takeDigs_stop (rest : List Nat) (h : noDigitHead rest = true) :
    takeDigs rest = ([], rest) := by
  match rest with
  | [] => rfl
  | c :: t =>
    simp only [noDigitHead, Bool.not_eq_true'] at h
    simp [takeDigs, h]

theorem takeDigs_run (ds : List Nat) (hds : ∀ c ∈ ds, digitCode c = true)
    (rest : List Nat) (hrest : noDigitHead rest = true) :
    takeDigs (ds ++ rest) = (ds, rest) := by
  induction ds with
  | nil => simpa using takeDigs_stop rest hrest
  | cons d t ih =>
    have hd : digitCode d = true := hds d (List.mem_cons_self d t)
    have ht := ih (fun c hc => hds c (List.mem_cons_of_mem d hc))
    simp [takeDigs, hd, ht]

theorem digsVal_snoc (xs : List Nat) (d : Nat) :
    digsVal (xs ++ [d]) = digsVal xs * 10 + (d - 48) := by
  simp [digsVal, List.foldl_append]

theorem digsVal_natDigs (n : Nat) : digsVal (natDigs n) = n := by
  induction n using Nat.strong_induction_on with
  | _ n ih =>
    rw [natDigs]
    split
    · simp only [digsVal, List.foldl_cons, List.foldl_nil]
      omega
    · rw [digsVal_snoc, ih (n / 10) (Nat.div_lt_self (by omega) (by omega))]
      omega

theorem hexVal_hexDigit (d : Nat) (h : d < 16) : hexVal (hexDigit d) = some d := by
  unfold hexDigit hexVal
  split_ifs <;> first
    | omega
    | (simp only [Option.some.injEq]; omega)

theorem hexQuad_hexFour (n : Nat) (h : n < 65536) :
    hexQuad (hexDigit (n / 4096)) (hexDigit (n / 256 % 16)) (hexDigit (n / 16 % 16))
      (hexDigit (n % 16)) = some n := by
  have h1 := hexVal_hexDigit (n / 4096) (by omega)
  have h2 := hexVal_hexDigit (n / 256 % 16) (by omega)
  have h3 := hexVal_hexDigit (n / 16 % 16) (by omega)
  have h4 := hexVal_hexDigit (n % 16) (by omega)
  simp only [hexQuad, h1, h2, h3, h4, Option.some.injEq]
  omega

theorem lowSurrogate_quad (a b cc d : Nat) (r : List Nat) :
    lowSurrogate (92 :: 117 :: a :: b :: cc :: d :: r) =
      (hexQuad a b cc d).bind
        (fun l => if 56320 ≤ l ∧ l < 57344 then some (l, r) else none) := rfl

theorem jstring_esc_step (f a b cc d : Nat) (r2 : List Nat) :
    jstring (f + 1) (92 :: 117 :: a :: b :: cc :: d :: r2) =
      (hexQuad a b cc d).bind (fun h =>
        if 55296 ≤ h ∧ h < 56320 then
          (lowSurrogate r2).elim (strCons h (jstring f r2))
            (fun p => strCons (65536 + (h - 55296) * 1024 + (p.1 - 56320)) (jstring f p.2))
        else strCons h (jstring f r2)) := rfl

theorem jstring_plain (f c : Nat) (r : List Nat) (h34 : ¬c = 34) (h92 : ¬c = 92)
    (hc : ¬c < 32) : jstring (f + 1) (c :: r) = strCons c (jstring f r) := by
  simp only [jstring, if_neg h34, if_neg h92, if_neg hc]

theorem jstring_escCode (c : Nat) (hwf : wfCode c = true) (f : Nat) (t : List Nat) :
    jstring (f + 1) (escCode c ++ t) = strCons c (jstring f t) := by
  have hc : c < 1114112 ∧ (c < 55296 ∨ 57344 ≤ c) := by
    simpa [wfCode] using hwf
  by_cases h34 : c = 34
  · subst h34; rfl
  by_cases h92 : c = 92
  · subst h92; rfl
  by_cases h8 : c = 8
  · subst h8; rfl
  by_cases h9 : c = 9
  · subst h9; rfl
  by_cases h10 : c = 10
  · subst h10; rfl
  by_cases h12 : c = 12
  · subst h12; rfl
  by_cases h13 : c = 13
  · subst h13; rfl
  by_cases hctrl : c < 32
  · have hq := hexQuad_hexFour c (by omega)
    have hns : ¬(55296 ≤ c ∧ c < 56320) := by omega
    simp [escCode, h34, h92, h8, h9, h10, h12, h13, hctrl, hexFour, jstring_esc_step, hq, hns]
  by_cases hprint : c < 127
  · simp only [escCode, if_neg h34, if_neg h92, if_neg h8, if_neg h9, if_neg h10, if_neg h12,
      if_neg h13, if_neg hctrl, if_pos hprint, List.cons_append, List.nil_append]
    exact jstring_plain f c t h34 h92 hctrl
  by_cases hbmp : c < 65536
  · have hq := hexQuad_hexFour c (by omega)
    have hns : ¬(55296 ≤ c ∧ c < 56320) := by omega
    simp [escCode, h34, h92, h8, h9, h10, h12, h13, hctrl, hprint, hbmp, hexFour,
      jstring_esc_step, hq, hns]
  · have hhi : 55296 + (c - 65536) / 1024 < 65536 := by omega
    have hlo : 56320 + (c - 65536) % 1024 < 65536 := by omega
    have hq1 := hexQuad_hexFour (55296 + (c - 65536) / 1024) hhi
    have hq2 := hexQuad_hexFour (56320 + (c - 65536) % 1024) hlo
    have hrange : 55296 ≤ 55296 + (c - 65536) / 1024 ∧ 55296 + (c - 65536) / 1024 < 56320 := by
      omega
    have hlrange : 56320 ≤ 56320 + (c - 65536) % 1024 ∧ 56320 + (c - 65536) % 1024 < 57344 := by
      omega
    simp only [escCode, if_neg h34, if_neg h92, if_neg h8, if_neg h9, if_neg h10, if_neg h12,
      if_neg h13, if_neg hctrl, if_neg hprint, if_neg hbmp, hexFour, List.cons_append,
      List.append_assoc, List.nil_append]
    rw [jstring_esc_step, hq1, Option.some_bind]
    rw [if_pos hrange, lowSurrogate_quad, hq2, Option.some_bind]
    rw [if_pos hlrange, Option.elim_some]
    rw [show (65536 + (55296 + (c - 65536) / 1024 - 55296) * 1024 +
      ((56320 + (c - 65536) % 1024, t).1 - 56320)) = c from by omega]

theorem jstring_escStr (s : PyStr) : ∀ (f : Nat) (rest : List Nat), wfStr s = true →
    s.length + 1 ≤ f → jstring f (escStr s ++ 34 :: rest) = some (s, rest) := by
  induction s with
  | nil =>
    intro f rest _ hf
    match f, hf with
    | g + 1, _ => rfl
  | cons c cs ih =>
    intro f rest hwf hf
    have hwfc : wfCode c = true := by
      have := hwf
      simp only [wfStr, List.all_cons, Bool.and_eq_true] at this
      exact this.1
    have hwfs : wfStr cs = true := by
      simp only [wfStr, List.all_cons, Bool.and_eq_true] at hwf
      exact hwf.2
    match f, hf with
    | g + 1, hf =>
      have harg : escStr (c :: cs) ++ 34 :: rest = escCode c ++ (escStr cs ++ 34 :: rest) := by
        simp [escStr]
      rw [harg, jstring_escCode c hwfc g, ih g rest hwfs (by simpa using hf)]
      rfl

theorem parseValue_quote (f : Nat) (r : List Nat) :
    parseValue (f + 1) (34 :: r) =
      Option.map (fun p => (Json.str p.1, p.2)) (jstring f r) := rfl

theorem parseValue_arrB (f : Nat) (r : List Nat) :
    parseValue (f + 1) (91 :: r) =
      (match skipWs r with
       | [] => none
       | c :: r2 =>
         if c = 93 then some (Json.arr [], r2)
         else Option.map (fun p => (Json.arr p.1, p.2)) (jelems f (c :: r2))) := rfl

theorem parseValue_objB (f : Nat) (r : List Nat) :
    parseValue (f + 1) (123 :: r) =
      (match skipWs r with
       | [] => none
       | c :: r2 =>
         if c = 125 then some (Json.obj [], r2)
         else Option.map (fun p => (Json.obj p.1, p.2)) (jmembers f (c :: r2))) := rfl

theorem parseValue_neg (f : Nat) (r : List Nat) :
    parseValue (f + 1) (45 :: r) =
      (match takeDigs r with
       | ([], _) => none
       | (ds, r2) => some (Json.num (-(digsVal ds : Int)), r2)) := rfl

theorem parseValue_digit (f c : Nat) (r : List Nat) (h : digitCode c = true) :
    parseValue (f + 1) (c :: r) =
      some (Json.num (digsVal (takeDigs (c :: r)).1), (takeDigs (c :: r)).2) := by
  have h48 : 48 ≤ c ∧ c ≤ 57 := by simpa [digitCode] using h
  obtain ⟨hlo, hhi⟩ := h48
  interval_cases c <;> rfl

theorem parseValue_ws (fuel c : Nat) (s : List Nat) (h : wsCode c = true) :
    parseValue fuel (c :: s) = parseValue fuel s := by
  cases fuel with
  | zero => rfl
  | succ f =>
    simp only [parseValue]
    rw [show skipWs (c :: s) = skipWs s from by simp [skipWs, h]]

theorem parseValue_nlInd (fuel lvl : Nat) (s : List Nat) :
    parseValue fuel (nlInd lvl ++ s) = parseValue fuel s := by
  cases fuel with
  | zero => rfl
  | succ f =>
    simp only [parseValue]
    rw [skipWs_nlInd]

theorem jelems_nlInd (fuel lvl : Nat) (s : List Nat) :
    jelems fuel (nlInd lvl ++ s) = jelems fuel s := by
  cases fuel with
  | zero => rfl
  | succ f =>
    simp only [jelems]
    rw [parseValue_nlInd]

theorem jmembers_nlInd (fuel lvl : Nat) (s : List Nat) :
    jmembers fuel (nlInd lvl ++ s) = jmembers fuel s := by
  cases fuel with
  | zero => rfl
  | succ f =>
    simp only [jmembers]
    rw [skipWs_nlInd]

theorem parseValue_intDump (i : Int) (f : Nat) (rest : List Nat)
    (hrest : noDigitHead rest = true) :
    parseValue (f + 1) (intDump i ++ rest) = some (Json.num i, rest) := by
  by_cases hneg : i < 0
  · rw [show intDump i = 45 :: natDigs i.natAbs from by simp [intDump, hneg]]
    rw [List.cons_append, parseValue_neg,
      takeDigs_run (natDigs i.natAbs) (natDigs_digits _) rest hrest]
    obtain ⟨c0, t0, h0, hd0⟩ := natDigs_head i.natAbs
    rw [h0]
    simp only [← h0, digsVal_natDigs, Option.some.injEq, Prod.mk.injEq]
    constructor
    · congr 1
      omega
    · trivial
  · rw [show intDump i = natDigs i.natAbs from by simp [intDump, hneg]]
    obtain ⟨c0, t0, h0, hd0⟩ := natDigs_head i.natAbs
    rw [h0, List.cons_append, parseValue_digit f c0 _ hd0, ← List.cons_append, ← h0,
      takeDigs_run (natDigs i.natAbs) (natDigs_digits _) rest hrest]
    simp only [digsVal_natDigs, Option.some.injEq, Prod.mk.injEq]
    constructor
    · congr 1
      omega
    · trivial

theorem digit_not_special (c : Nat) (h : digitCode c = true) :
    wsCode c = false ∧ ¬c = 93 ∧ ¬c = 125 := by
  have hb : 48 ≤ c ∧ c ≤ 57 := by simpa [digitCode] using h
  refine ⟨?_, by omega, by omega⟩
  simp only [wsCode, Bool.or_eq_false_iff, decide_eq_false_iff_not]
  omega

theorem jdump_head (v : Json) (lvl : Nat) :
    ∃ c t, jdump v lvl = c :: t ∧ wsCode c = false ∧ ¬c = 93 ∧ ¬c = 125 := by
  cases v with
  | null => exact ⟨110, [117, 108, 108], rfl, by decide, by decide, by decide⟩
  | bool b =>
    cases b with
    | true => exact ⟨116, [114, 117, 101], rfl, by decide, by decide, by decide⟩
    | false => exact ⟨102, [97, 108, 115, 101], rfl, by decide, by decide, by decide⟩
  | num i =>
    by_cases hneg : i < 0
    · refine ⟨45, natDigs i.natAbs, ?_, by decide, by decide, by decide⟩
      simp [jdump, intDump, hneg]
    · obtain ⟨c0, t0, h0, hd0⟩ := natDigs_head i.natAbs
      obtain ⟨hws, h93, h125⟩ := digit_not_special c0 hd0
      refine ⟨c0, t0, ?_, hws, h93, h125⟩
      simp [jdump, intDump, hneg, h0]
  | str s => exact ⟨34, escStr s ++ [34], rfl, by decide, by decide, by decide⟩
  | arr xs =>
    cases xs with
    | nil => exact ⟨91, [93], rfl, by decide, by decide, by decide⟩
    | cons x tail =>
      exact ⟨91, nlInd (lvl + 1) ++ dumpItems (x :: tail) (lvl + 1) ++ nlInd lvl ++ [93], rfl,
        by decide, by decide, by decide⟩
  | obj ms =>
    cases ms with
    | nil => exact ⟨123, [125], rfl, by decide, by decide, by decide⟩
    | cons m tail =>
      exact ⟨123, nlInd (lvl + 1) ++ dumpMembers (m :: tail) (lvl + 1) ++ nlInd lvl ++ [125],
        rfl, by decide, by decide, by decide⟩

theorem dumpItems_head (x : Json) (xs : List Json) (lvl : Nat) :
    ∃ c t, dumpItems (x :: xs) lvl = c :: t ∧ wsCode c = false ∧ ¬c = 93 ∧ ¬c = 125 := by
  obtain ⟨c, t, hct, hws, h93, h125⟩ := jdump_head x lvl
  cases xs with
  | nil => exact ⟨c, t, by simpa [dumpItems] using hct, hws, h93, h125⟩
  | cons y ys =>
    refine ⟨c, t ++ (44 :: (nlInd lvl ++ dumpItems (y :: ys) lvl)), ?_, hws, h93, h125⟩
    simp [dumpItems, hct]

theorem dumpMembers_head (k : PyStr) (v : Json) (ms : List (PyStr × Json)) (lvl : Nat) :
    ∃ t, dumpMembers ((k, v) :: ms) lvl = 34 :: t := by
  cases ms with
  | nil => exact ⟨escStr k ++ [34] ++ (58 :: 32 :: jdump v lvl), by simp [dumpMembers, strDump]⟩
  | cons m tail =>
    exact ⟨escStr k ++ [34] ++
      (58 :: 32 :: (jdump v lvl ++ 44 :: (nlInd lvl ++ dumpMembers (m :: tail) lvl))),
      by simp [dumpMembers, strDump]⟩

theorem jsize_pos (v : Json) : 1 ≤ jsize v := by
  cases v <;> simp only [jsize] <;> omega

theorem elemsSize_pos (xs : List Json) : 1 ≤ elemsSize xs := by
  cases xs with
  | nil => simp [elemsSize]
  | cons x t =>
    have := jsize_pos x
    simp only [elemsSize]
    omega

theorem memsSize_pos (ms : List (PyStr × Json)) : 1 ≤ memsSize ms := by
  cases ms with
  | nil => simp [memsSize]
  | cons m t =>
    cases m
    simp only [memsSize]
    omega

theorem noDigitHead_nlInd (lvl : Nat) (s : List Nat) :
    noDigitHead (nlInd lvl ++ s) = true := rfl

theorem parseValue_arrB_cons (f : Nat) (r : List Nat) (c : Nat) (r2 : List Nat)
    (hr : skipWs r = c :: r2) (h93 : ¬c = 93) :
    parseValue (f + 1) (91 :: r) =
      Option.map (fun p => (Json.arr p.1, p.2)) (jelems f (c :: r2)) := by
  rw [parseValue_arrB, hr]
  simp only [if_neg h93]

theorem parseValue_objB_cons (f : Nat) (r : List Nat) (c : Nat) (r2 : List Nat)
    (hr : skipWs r = c :: r2) (h125 : ¬c = 125) :
    parseValue (f + 1) (123 :: r) =
      Option.map (fun p => (Json.obj p.1, p.2)) (jmembers f (c :: r2)) := by
  rw [parseValue_objB, hr]
  simp only [if_neg h125]

/-- Round trip of the whole grammar, by induction on the reader's fuel: a
rendered value (at any indentation level) parses back to itself, as do
rendered item lists and member lists followed by their closer. -/
theorem rtAll : ∀ fuel : Nat,
    (∀ (v : Json) (lvl : Nat) (rest : List Nat), wfJson v = true → jsize v ≤ fuel →
      noDigitHead rest = true → parseValue fuel (jdump v lvl ++ rest) = some (v, rest)) ∧
    (∀ (x : Json) (xs : List Json) (lvl lvl2 : Nat) (rest : List Nat),
      wfElems (x :: xs) = true → elemsSize (x :: xs) ≤ fuel →
      jelems fuel (dumpItems (x :: xs) lvl ++ (nlInd lvl2 ++ (93 :: rest))) =
        some (x :: xs, rest)) ∧
    (∀ (k : PyStr) (v : Json) (ms : List (PyStr × Json)) (lvl lvl2 : Nat) (rest : List Nat),
      wfMems ((k, v) :: ms) = true → memsSize ((k, v) :: ms) ≤ fuel →
      jmembers fuel (dumpMembers ((k, v) :: ms) lvl ++ (nlInd lvl2 ++ (125 :: rest))) =
        some ((k, v) :: ms, rest)) := by
  intro fuel
  induction fuel with
  | zero =>
    refine ⟨?_, ?_, ?_⟩
    · intro v lvl rest _ hsz _
      exact absurd hsz (by have := jsize_pos v; omega)
    · intro x xs lvl lvl2 rest _ hsz
      exact absurd hsz (by have := elemsSize_pos (x :: xs); omega)
    · intro k v ms lvl lvl2 rest _ hsz
      exact absurd hsz (by have := memsSize_pos ((k, v) :: ms); omega)
  | succ f ih =>
    obtain ⟨ihV, ihE, ihM⟩ := ih
    refine ⟨?_, ?_, ?_⟩
    · -- values
      intro v lvl rest hwf hsz hrest
      cases v with
      | null =>
        simp only [jdump, List.cons_append, List.nil_append]
        rfl
      | bool b =>
        cases b <;> (simp only [jdump, List.cons_append, List.nil_append]; rfl)
      | num i =>
        rw [show jdump (Json.num i) lvl = intDump i from rfl]
        exact parseValue_intDump i f rest hrest
      | str s =>
        have hwfs : wfStr s = true := by simpa [wfJson] using hwf
        have hlen : s.length + 1 ≤ f := by
          simp only [jsize] at hsz
          omega
        rw [show jdump (Json.str s) lvl ++ rest = 34 :: (escStr s ++ 34 :: rest) from by
          simp [jdump, strDump]]
        rw [parseValue_quote, jstring_escStr s f rest hwfs hlen]
        rfl
      | arr xs =>
        cases xs with
        | nil =>
          simp only [jdump, List.cons_append, List.nil_append]
          rfl
        | cons x tail =>
          obtain ⟨c, t, hct, hws, h93, _⟩ := dumpItems_head x tail (lvl + 1)
          have hr : skipWs (nlInd (lvl + 1) ++ (dumpItems (x :: tail) (lvl + 1) ++
              (nlInd lvl ++ (93 :: rest)))) =
              c :: (t ++ (nlInd lvl ++ (93 :: rest))) := by
            rw [skipWs_nlInd, hct, List.cons_append, skipWs_cons_of c _ hws]
          rw [show jdump (Json.arr (x :: tail)) lvl ++ rest =
              91 :: (nlInd (lvl + 1) ++ (dumpItems (x :: tail) (lvl + 1) ++
                (nlInd lvl ++ (93 :: rest)))) from by
            simp [jdump]]
          rw [parseValue_arrB_cons f _ c _ hr h93, ← List.cons_append, ← hct]
          have hwfe : wfElems (x :: tail) = true := by simpa [wfJson] using hwf
          have hsze : elemsSize (x :: tail) ≤ f := by
            simp only [jsize] at hsz
            omega
          rw [ihE x tail (lvl + 1) lvl rest hwfe hsze]
          rfl
      | obj ms =>
        cases ms with
        | nil =>
          simp only [jdump, List.cons_append, List.nil_append]
          rfl
        | cons m tail =>
          obtain ⟨k, v⟩ := m
          obtain ⟨t, hct⟩ := dumpMembers_head k v tail (lvl + 1)
          have hr : skipWs (nlInd (lvl + 1) ++ (dumpMembers ((k, v) :: tail) (lvl + 1) ++
              (nlInd lvl ++ (125 :: rest)))) =
              34 :: (t ++ (nlInd lvl ++ (125 :: rest))) := by
            rw [skipWs_nlInd, hct, List.cons_append, skipWs_cons_of 34 _ (by decide)]
          rw [show jdump (Json.obj ((k, v) :: tail)) lvl ++ rest =
              123 :: (nlInd (lvl + 1) ++ (dumpMembers ((k, v) :: tail) (lvl + 1) ++
                (nlInd lvl ++ (125 :: rest)))) from by
            simp [jdump]]
          rw [parseValue_objB_cons f _ 34 _ hr (by decide), ← List.cons_append, ← hct]
          have hwfm : wfMems ((k, v) :: tail) = true := by simpa [wfJson] using hwf
          have hszm : memsSize ((k, v) :: tail) ≤ f := by
            simp only [jsize] at hsz
            omega
          rw [ihM k v tail (lvl + 1) lvl rest hwfm hszm]
          rfl
    · -- array items
      intro x xs lvl lvl2 rest hwf hsz
      have hwfx : wfJson x = true := by
        simp only [wfElems, Bool.and_eq_true] at hwf
        exact hwf.1
      cases xs with
      | nil =>
        have hp := ihV x lvl (nlInd lvl2 ++ (93 :: rest)) hwfx
          (by simp only [elemsSize] at hsz; have := jsize_pos x; omega)
          (noDigitHead_nlInd lvl2 _)
        rw [show dumpItems [x] lvl ++ (nlInd lvl2 ++ (93 :: rest)) =
            jdump x lvl ++ (nlInd lvl2 ++ (93 :: rest)) from by simp [dumpItems]]
        simp only [jelems, hp]
        rw [skipWs_nlInd, skipWs_cons_of 93 rest (by decide)]
        simp
      | cons y ys =>
        have hwfy : wfElems (y :: ys) = true := by
          simp only [wfElems, Bool.and_eq_true] at hwf ⊢
          exact hwf.2
        have hp := ihV x lvl
          (44 :: (nlInd lvl ++ (dumpItems (y :: ys) lvl ++ (nlInd lvl2 ++ (93 :: rest)))))
          hwfx (by simp only [elemsSize] at hsz; have := elemsSize_pos (y :: ys); omega) rfl
        have he : jelems f (nlInd lvl ++ (dumpItems (y :: ys) lvl ++
            (nlInd lvl2 ++ (93 :: rest)))) = some (y :: ys, rest) := by
          rw [jelems_nlInd]
          exact ihE y ys lvl lvl2 rest hwfy
            (by simp only [elemsSize] at hsz ⊢; have := jsize_pos x; omega)
        rw [show dumpItems (x :: y :: ys) lvl ++ (nlInd lvl2 ++ (93 :: rest)) =
            jdump x lvl ++ (44 :: (nlInd lvl ++ (dumpItems (y :: ys) lvl ++
              (nlInd lvl2 ++ (93 :: rest))))) from by simp [dumpItems]]
        simp only [jelems, hp]
        rw [skipWs_cons_of 44 _ (by decide)]
        simp [he]
    · -- object members
      intro k v ms lvl lvl2 rest hwf hsz
      have hwfk : wfStr k = true := by
        simp only [wfMems, Bool.and_eq_true] at hwf
        exact hwf.1.1
      have hwfv : wfJson v = true := by
        simp only [wfMems, Bool.and_eq_true] at hwf
        exact hwf.1.2
      have hklen : k.length + 1 ≤ f := by
        simp only [memsSize] at hsz
        have := jsize_pos v
        have := memsSize_pos ms
        omega
      have hvsz : jsize v ≤ f := by
        simp only [memsSize] at hsz
        have := memsSize_pos ms
        omega
      cases ms with
      | nil =>
        have hk : jstring f (escStr k ++ 34 :: (58 :: (32 :: (jdump v lvl ++
            (nlInd lvl2 ++ (125 :: rest)))))) =
            some (k, 58 :: (32 :: (jdump v lvl ++ (nlInd lvl2 ++ (125 :: rest))))) :=
          jstring_escStr k f _ hwfk hklen
        have hv : parseValue f (32 :: (jdump v lvl ++ (nlInd lvl2 ++ (125 :: rest)))) =
            some (v, nlInd lvl2 ++ (125 :: rest)) := by
          rw [parseValue_ws f 32 _ (by decide)]
          exact ihV v lvl _ hwfv hvsz (noDigitHead_nlInd lvl2 _)
        rw [show dumpMembers [(k, v)] lvl ++ (nlInd lvl2 ++ (125 :: rest)) =
            34 :: (escStr k ++ 34 :: (58 :: (32 :: (jdump v lvl ++
              (nlInd lvl2 ++ (125 :: rest)))))) from by simp [dumpMembers, strDump]]
        simp only [jmembers]
        rw [skipWs_cons_of 34 _ (by decide)]
        simp [hk, hv, skipWs_cons_of 58 _ (by decide), skipWs_nlInd,
          skipWs_cons_of 125 rest (by decide)]
      | cons m2 tail2 =>
        obtain ⟨k2, v2⟩ := m2
        have hwft : wfMems ((k2, v2) :: tail2) = true := by
          simp only [wfMems, Bool.and_eq_true] at hwf ⊢
          exact hwf.2
        have hszt : memsSize ((k2, v2) :: tail2) ≤ f := by
          simp only [memsSize] at hsz ⊢
          have := jsize_pos v
          omega
        have hk : jstring f (escStr k ++ 34 :: (58 :: (32 :: (jdump v lvl ++
            (44 :: (nlInd lvl ++ (dumpMembers ((k2, v2) :: tail2) lvl ++
              (nlInd lvl2 ++ (125 :: rest))))))))) =
            some (k, 58 :: (32 :: (jdump v lvl ++ (44 :: (nlInd lvl ++
              (dumpMembers ((k2, v2) :: tail2) lvl ++ (nlInd lvl2 ++ (125 :: rest)))))))) :=
          jstring_escStr k f _ hwfk hklen
        have hv : parseValue f (32 :: (jdump v lvl ++ (44 :: (nlInd lvl ++
            (dumpMembers ((k2, v2) :: tail2) lvl ++ (nlInd lvl2 ++ (125 :: rest))))))) =
            some (v, 44 :: (nlInd lvl ++ (dumpMembers ((k2, v2) :: tail2) lvl ++
              (nlInd lvl2 ++ (125 :: rest))))) := by
          rw [parseValue_ws f 32 _ (by decide)]
          exact ihV v lvl _ hwfv hvsz rfl
        have hm : jmembers f (nlInd lvl ++ (dumpMembers ((k2, v2) :: tail2) lvl ++
            (nlInd lvl2 ++ (125 :: rest)))) = some ((k2, v2) :: tail2, rest) := by
          rw [jmembers_nlInd]
          exact ihM k2 v2 tail2 lvl lvl2 rest hwft hszt
        rw [show dumpMembers ((k, v) :: (k2, v2) :: tail2) lvl ++
            (nlInd lvl2 ++ (125 :: rest)) =
            34 :: (escStr k ++ 34 :: (58 :: (32 :: (jdump v lvl ++
              (44 :: (nlInd lvl ++ (dumpMembers ((k2, v2) :: tail2) lvl ++
                (nlInd lvl2 ++ (125 :: rest))))))))) from by simp [dumpMembers, strDump]]
        simp only [jmembers]
        rw [skipWs_cons_of 34 _ (by decide)]
        simp [hk, hv, hm, skipWs_cons_of 58 _ (by decide),
          skipWs_cons_of 44 _ (by decide)]

theorem escCode_len (c : Nat) : 1 ≤ (escCode c).length := by
  by_cases h34 : c = 34
  · simp [escCode, h34]
  by_cases h92 : c = 92
  · simp [escCode, h34, h92]
  by_cases h8 : c = 8
  · simp [escCode, h34, h92, h8]
  by_cases h9 : c = 9
  · simp [escCode, h34, h92, h8, h9]
  by_cases h10 : c = 10
  · simp [escCode, h34, h92, h8, h9, h10]
  by_cases h12 : c = 12
  · simp [escCode, h34, h92, h8, h9, h10, h12]
  by_cases h13 : c = 13
  · simp [escCode, h34, h92, h8, h9, h10, h12, h13]
  by_cases hctrl : c < 32
  · simp [escCode, h34, h92, h8, h9, h10, h12, h13, hctrl, hexFour]
  by_cases hprint : c < 127
  · simp [escCode, h34, h92, h8, h9, h10, h12, h13, hctrl, hprint]
  by_cases hbmp : c < 65536
  · simp [escCode, h34, h92, h8, h9, h10, h12, h13, hctrl, hprint, hbmp, hexFour]
  · simp [escCode, h34, h92, h8, h9, h10, h12, h13, hctrl, hprint, hbmp, hexFour]

theorem escStr_len (s : PyStr) : s.length ≤ (escStr s).length := by
  induction s with
  | nil => simp [escStr]
  | cons c cs ih =>
    have := escCode_len c
    simp only [escStr, List.flatMap_cons, List.length_append, List.length_cons] at ih ⊢
    omega

theorem nlInd_length (lvl : Nat) : (nlInd lvl).length = 1 + 2 * lvl := by
  simp [nlInd]
  omega

theorem strDump_length (s : PyStr) : (strDump s).length = (escStr s).length + 2 := by
  simp [strDump]

theorem intDump_len (i : Int) : 1 ≤ (intDump i).length := by
  by_cases h : i < 0
  · simp [intDump, h]
  · simp only [intDump, if_neg h]
    exact List.length_pos.mpr (natDigs_ne_nil _)

mutual
/-- A rendered value is at least as long as the fuel its parse needs (minus one). -/
theorem jsize_le_dump : ∀ (v : Json) (lvl : Nat), jsize v ≤ (jdump v lvl).length
  | Json.null, lvl => by simp [jsize, jdump]
  | Json.bool b, lvl => by cases b <;> simp [jsize, jdump]
  | Json.num i, lvl => by
    have := intDump_len i
    simp only [jsize, jdump]
    omega
  | Json.str s, lvl => by
    have := escStr_len s
    simp only [jsize, jdump, strDump_length]
    omega
  | Json.arr [], lvl => by simp [jsize, elemsSize, jdump]
  | Json.arr (x :: xs), lvl => by
    have hi := elemsSize_le_items (x :: xs) (lvl + 1) (by simp)
    rw [show jsize (Json.arr (x :: xs)) = 1 + elemsSize (x :: xs) from rfl,
      show jdump (Json.arr (x :: xs)) lvl =
        91 :: (nlInd (lvl + 1) ++ dumpItems (x :: xs) (lvl + 1) ++ nlInd lvl ++ [93]) from rfl]
    simp only [List.length_cons, List.length_append, nlInd_length, List.length_singleton]
    omega
  | Json.obj [], lvl => by simp [jsize, memsSize, jdump]
  | Json.obj (m :: ms), lvl => by
    have hi := memsSize_le_members (m :: ms) (lvl + 1) (by simp)
    rw [show jsize (Json.obj (m :: ms)) = 1 + memsSize (m :: ms) from rfl,
      show jdump (Json.obj (m :: ms)) lvl =
        123 :: (nlInd (lvl + 1) ++ dumpMembers (m :: ms) (lvl + 1) ++ nlInd lvl ++ [125])
        from rfl]
    simp only [List.length_cons, List.length_append, nlInd_length, List.length_singleton]
    omega

/-- The rendered-length bound for nonempty item lists. -/
theorem elemsSize_le_items : ∀ (xs : List Json) (lvl : Nat), xs ≠ [] →
    elemsSize xs ≤ (dumpItems xs lvl).length + 3
  | [], _, h => absurd rfl h
  | [x], lvl, _ => by
    have hv := jsize_le_dump x lvl
    rw [show elemsSize [x] = 1 + jsize x + 1 from rfl,
      show dumpItems [x] lvl = jdump x lvl from rfl]
    omega
  | x :: y :: ys, lvl, _ => by
    have hv := jsize_le_dump x lvl
    have ht := elemsSize_le_items (y :: ys) lvl (by simp)
    rw [show elemsSize (x :: y :: ys) = 1 + jsize x + elemsSize (y :: ys) from rfl,
      show dumpItems (x :: y :: ys) lvl =
        jdump x lvl ++ 44 :: (nlInd lvl ++ dumpItems (y :: ys) lvl) from rfl]
    simp only [List.length_append, List.length_cons, nlInd_length]
    omega

/-- The rendered-length bound for nonempty member lists. -/
theorem memsSize_le_members : ∀ (ms : List (PyStr × Json)) (lvl : Nat), ms ≠ [] →
    memsSize ms ≤ (dumpMembers ms lvl).length + 3
  | [], _, h => absurd rfl h
  | [(k, v)], lvl, _ => by
    have hv := jsize_le_dump v lvl
    have hk := escStr_len k
    rw [show memsSize [(k, v)] = 2 + k.length + jsize v + 1 from rfl,
      show dumpMembers [(k, v)] lvl = strDump k ++ 58 :: 32 :: jdump v lvl from rfl]
    simp only [List.length_append, List.length_cons, strDump_length]
    omega
  | (k, v) :: m2 :: tail, lvl, _ => by
    have hv := jsize_le_dump v lvl
    have hk := escStr_len k
    have ht := memsSize_le_members (m2 :: tail) lvl (by simp)
    rw [show memsSize ((k, v) :: m2 :: tail) = 2 + k.length + jsize v + memsSize (m2 :: tail)
        from rfl,
      show dumpMembers ((k, v) :: m2 :: tail) lvl =
        strDump k ++ 58 :: 32 :: (jdump v lvl ++ 44 :: (nlInd lvl ++ dumpMembers (m2 :: tail) lvl))
        from rfl]
    simp only [List.length_append, List.length_cons, strDump_length, nlInd_length]
    omega
end

/-- Round trip of `json.dump(v, f, indent=2)` through `json.load`, for every
value whose strings are sequences of Unicode scalar values. -/
theorem loads_dump (v : Json) (h : wfJson v = true) : json_loads (jdump v 0) = some v := by
  have hfuel : jsize v ≤ (jdump v 0).length + 1 := by
    have := jsize_le_dump v 0
    omega
  have hrt := (rtAll ((jdump v 0).length + 1)).1 v 0 [] h hfuel rfl
  rw [List.append_nil] at hrt
  simp [json_loads, hrt, skipWs]

/-! Helper lemmas about the pipeline model. -/

theorem asRow_ok (j : Json) (r : List Json) (h : asRow j = Except.ok r) :
    j = Json.arr r := by
  cases j <;> simp [asRow] at h
  rw [h]

theorem asField_ok (j : Json) (s : PyStr) (h : asField j = Except.ok s) :
    j = Json.str s := by
  cases j <;> simp [asField] at h
  rw [h]

theorem asRows_ok (ds : List Json) : ∀ rows : List (List Json),
    asRows ds = Except.ok rows → ds = rows.map Json.arr := by
  induction ds with
  | nil =>
    intro rows h
    simp only [asRows, Except.ok.injEq] at h
    rw [← h]
    rfl
  | cons x xs ih =>
    intro rows h
    cases hx : asRow x with
    | error e => simp [asRows, hx] at h
    | ok r =>
      cases hxs : asRows xs with
      | error e => simp [asRows, hx, hxs] at h
      | ok rs =>
        simp only [asRows, hx, hxs, Except.ok.injEq] at h
        rw [← h]
        simp [asRow_ok x r hx, ih rs hxs]

theorem asFields_ok (ds : List Json) : ∀ cols : List PyStr,
    asFields ds = Except.ok cols → ds = cols.map Json.str := by
  induction ds with
  | nil =>
    intro cols h
    simp only [asFields, Except.ok.injEq] at h
    rw [← h]
    rfl
  | cons x xs ih =>
    intro cols h
    cases hx : asField x with
    | error e => simp [asFields, hx] at h
    | ok s =>
      cases hxs : asFields xs with
      | error e => simp [asFields, hx, hxs] at h
      | ok ss =>
        simp only [asFields, hx, hxs, Except.ok.injEq] at h
        rw [← h]
        simp [asField_ok x s hx, ih ss hxs]

/-- A run of load_data.py that ends without an exception performed every step,
in order: both file reads, then the planets job, then the moons job. -/
theorem load_main_ok_events (wh : WarehouseOracle) (fs : FS) :
    (load_main wh fs).err = none →
    (load_main wh fs).events = [Event.openPlanetsFile, Event.openMoonsFile,
      Event.submitPlanetsJob, Event.submitMoonsJob] := by
  unfold load_main
  repeat' split
  all_goals simp

/-- A DataFrame built by `pd_DataFrame` holds exactly the payload's rows and
column names, in order: nothing is dropped, reordered, or inspected. -/
theorem pd_DataFrame_ok (d f : Json) (df : DataFrame)
    (h : pd_DataFrame d f = Except.ok df) :
    d = Json.arr (df.rows.map Json.arr) ∧ f = Json.arr (df.fields.map Json.str) := by
  cases hd : asRow d with
  | error e => simp [pd_DataFrame, hd] at h
  | ok ds =>
    cases hf : asRow f with
    | error e => simp [pd_DataFrame, hd, hf] at h
    | ok fsj =>
      cases hds : asRows ds with
      | error e => simp [pd_DataFrame, hd, hf, hds] at h
      | ok rows =>
        cases hfs : asFields fsj with
        | error e => simp [pd_DataFrame, hd, hf, hds, hfs] at h
        | ok cols =>
          simp only [pd_DataFrame, hd, hf, hds, hfs, Except.ok.injEq] at h
          rw [← h]
          constructor
          · rw [asRow_ok d ds hd, asRows_ok ds rows hds]
          · rw [asRow_ok f fsj hf, asFields_ok fsj cols hfs]

/-! Concrete example inputs used by counterexamples and witnesses. -/

/-- A satellites-endpoint response body whose single record carries
`isPlanet: true`: the upstream can answer this, and the code never looks. -/
def moonsBodyEx : Json :=
  Json.obj
    [(strCodes "fields", Json.arr [Json.str (strCodes "isPlanet"), Json.str (strCodes "name")]),
     (strCodes "data", Json.arr [Json.arr [Json.bool true, Json.str (strCodes "Io")]])]

/-- The satellites endpoint's HTTP response carrying `moonsBodyEx`. -/
def moonsRespEx : HttpResponse := ⟨200, jdump moonsBodyEx 0⟩

/-- The DataFrame `fetch_moons` builds from `moonsRespEx`. -/
def moonsDfEx : DataFrame :=
  ⟨[strCodes "isPlanet", strCodes "name"], [[Json.bool true, Json.str (strCodes "Io")]]⟩

/-- A 503 response, as the spec's Scenario 2 uses. -/
def resp503 : HttpResponse := ⟨503, []⟩

/-! Claim C1. -/

/-- C1 counterexample: a record whose `isPlanet` flag is true appears in the
Moons batch — the code classifies by endpoint, not by the flag, so the claim
"every record whose isPlanet flag is true appears in the Planets batch and
never in the Moons batch" fails on the code. -/
theorem c1_counterexample :
    fetch_moons moonsRespEx = Except.ok (some moonsDfEx) ∧
    moonsDfEx.to_dict_records =
      [Json.obj [(strCodes "isPlanet", Json.bool true),
                 (strCodes "name", Json.str (strCodes "Io"))]] := ⟨rfl, rfl⟩

/-- C1 amended: the fetchers perform no record classification at all — the two
categories' record handling is one and the same function of the response, and
a successfully built batch is exactly the endpoint's `data` rows (with its
`fields` names) verbatim and in order. -/
theorem c1_amended :
    (∀ resp, fetch_planets resp = fetch_moons resp) ∧
    (∀ d f df, pd_DataFrame d f = Except.ok df →
      d = Json.arr (df.rows.map Json.arr) ∧ f = Json.arr (df.fields.map Json.str)) :=
  ⟨fun _ => rfl, fun d f df h => pd_DataFrame_ok d f df h⟩

/-- C1 amended, witnessed at the concrete satellites response. -/
theorem c1_amended_witness :
    fetch_planets moonsRespEx = fetch_moons moonsRespEx ∧
    jdump moonsBodyEx 0 = jdump moonsBodyEx 0 ∧
    (Json.arr [Json.arr [Json.bool true, Json.str (strCodes "Io")]] =
      Json.arr (moonsDfEx.rows.map Json.arr) ∧
     Json.arr [Json.str (strCodes "isPlanet"), Json.str (strCodes "name")] =
      Json.arr (moonsDfEx.fields.map Json.str)) :=
  ⟨c1_amended.1 moonsRespEx, rfl,
   c1_amended.2 (Json.arr [Json.arr [Json.bool true, Json.str (strCodes "Io")]])
     (Json.arr [Json.str (strCodes "isPlanet"), Json.str (strCodes "name")]) moonsDfEx rfl⟩

/-! Claim C2. -/

/-- C2 counterexample: a 503 (the claim's retryable condition) and a 404 (the
claim's non-retryable client error) produce one and the same outcome — the
fetch returns `None` without raising in either case, so no
TransientFetchError/FetchError distinction exists in the code. -/
theorem c2_counterexample :
    fetch_planets resp503 = Except.ok none ∧
    fetch_planets ⟨404, []⟩ = Except.ok none ∧
    fetch_planets resp503 = fetch_planets ⟨404, []⟩ := ⟨rfl, rfl, rfl⟩

/-- C2 amended: on any non-200 status the fetch prints a diagnostic and
returns `None`, with no distinction between server and client errors; on a
200 response, a malformed JSON body raises `json`'s decode error, and a body
whose top level lacks the `data` key raises a KeyError. -/
theorem c2_amended :
    (∀ resp : HttpResponse, resp.status_code ≠ 200 →
      fetch_planets resp = Except.ok none ∧ fetch_moons resp = Except.ok none) ∧
    (∀ resp : HttpResponse, resp.status_code = 200 → json_loads resp.text = none →
      fetch_planets resp = Except.error PyError.jsonDecodeError ∧
      fetch_moons resp = Except.error PyError.jsonDecodeError) ∧
    (∀ (resp : HttpResponse) (j : Json), resp.status_code = 200 →
      json_loads resp.text = some j → pyItem j "data" = Except.error PyError.keyError →
      fetch_planets resp = Except.error PyError.keyError ∧
      fetch_moons resp = Except.error PyError.keyError) := by
  refine ⟨?_, ?_, ?_⟩
  · intro resp h
    constructor <;> simp [fetch_planets, fetch_moons, h]
  · intro resp h200 hbad
    constructor <;> simp [fetch_planets, fetch_moons, h200, response_json, hbad]
  · intro resp j h200 hj hkey
    constructor <;> simp [fetch_planets, fetch_moons, h200, response_json, hj, hkey]

/-- C2 amended, witnessed at a 404 response, a 200 response with a malformed
body, and a 200 response whose object lacks a `data` key. -/
theorem c2_amended_witness :
    (fetch_planets ⟨404, []⟩ = Except.ok none ∧ fetch_moons ⟨404, []⟩ = Except.ok none) ∧
    (fetch_planets ⟨200, strCodes "nope"⟩ = Except.error PyError.jsonDecodeError ∧
     fetch_moons ⟨200, strCodes "nope"⟩ = Except.error PyError.jsonDecodeError) ∧
    (fetch_planets ⟨200, jdump (Json.obj [(strCodes "a", Json.num 1)]) 0⟩ =
       Except.error PyError.keyError ∧
     fetch_moons ⟨200, jdump (Json.obj [(strCodes "a", Json.num 1)]) 0⟩ =
       Except.error PyError.keyError) :=
  ⟨c2_amended.1 ⟨404, []⟩ (by decide),
   c2_amended.2.1 ⟨200, strCodes "nope"⟩ rfl rfl,
   c2_amended.2.2 ⟨200, jdump (Json.obj [(strCodes "a", Json.num 1)]) 0⟩
     (Json.obj [(strCodes "a", Json.num 1)]) rfl
     (loads_dump (Json.obj [(strCodes "a", Json.num 1)]) rfl) (by rfl)⟩

/-! Claim C3. -/

/-- C3 counterexample: in a run where the planets fetch fails (status 503),
the moons category is still fetched and serialized — raw_moons.json is
written, refuting "if the planets fetch fails, no subsequent serialization
for any category is performed in that run". -/
theorem c3_counterexample :
    (fetch_main resp503 moonsRespEx emptyFS).err = none ∧
    (fetch_main resp503 moonsRespEx emptyFS).events =
      [Event.fetchPlanetsCall, Event.fetchMoonsCall, Event.saveMoonsFile] ∧
    (fetch_main resp503 moonsRespEx emptyFS).fs "raw_moons.json" =
      some (jdump (Json.arr moonsDfEx.to_dict_records) 0) := ⟨rfl, rfl, by rfl⟩

/-- C3 amended: an exception during the planets fetch (for example a malformed
200-response body) aborts the run before the moons fetch and before any
serialization; but a fetch that merely returns no batch (any non-200 status)
only skips that category's own serialization — the other category is still
fetched and, on success, serialized. -/
theorem c3_amended :
    (∀ respP respM fs e, fetch_planets respP = Except.error e →
      fetch_main respP respM fs = ⟨[Event.fetchPlanetsCall], fs, some e⟩) ∧
    (∀ respP respM fs dfM, respP.status_code ≠ 200 →
      fetch_moons respM = Except.ok (some dfM) →
      (fetch_main respP respM fs).err = none ∧
      (fetch_main respP respM fs).fs "raw_planets.json" = fs "raw_planets.json" ∧
      (fetch_main respP respM fs).fs "raw_moons.json" =
        some (jdump (Json.arr dfM.to_dict_records) 0) ∧
      (fetch_main respP respM fs).events =
        [Event.fetchPlanetsCall, Event.fetchMoonsCall, Event.saveMoonsFile]) := by
  constructor
  · intro respP respM fs e h
    simp [fetch_main, h]
  · intro respP respM fs dfM h hm
    have hp : fetch_planets respP = Except.ok none := by simp [fetch_planets, h]
    refine ⟨?_, ?_, ?_, ?_⟩ <;> simp [fetch_main, hp, hm, save_to_json]

/-- C3 amended, witnessed at a malformed-body planets response and at the
503-plus-valid-moons pair. -/
theorem c3_amended_witness :
    fetch_main ⟨200, strCodes "nope"⟩ moonsRespEx emptyFS =
      ⟨[Event.fetchPlanetsCall], emptyFS, some PyError.jsonDecodeError⟩ ∧
    ((fetch_main resp503 moonsRespEx emptyFS).err = none ∧
     (fetch_main resp503 moonsRespEx emptyFS).fs "raw_planets.json" =
       emptyFS "raw_planets.json" ∧
     (fetch_main resp503 moonsRespEx emptyFS).fs "raw_moons.json" =
       some (jdump (Json.arr moonsDfEx.to_dict_records) 0) ∧
     (fetch_main resp503 moonsRespEx emptyFS).events =
       [Event.fetchPlanetsCall, Event.fetchMoonsCall, Event.saveMoonsFile]) :=
  ⟨c3_amended.1 ⟨200, strCodes "nope"⟩ moonsRespEx emptyFS PyError.jsonDecodeError rfl,
   c3_amended.2 resp503 moonsRespEx emptyFS moonsDfEx (by decide) (by rfl)⟩

/-! Claim C4. -/

/-- C4: serializing a batch with `save_to_json` and then `json.load`-ing the
file yields exactly the batch's record sequence, in order and with the same
field content, for every batch whose strings are Unicode scalar sequences and
whose column names are distinct (the invariants every batch built from a real
Python DataFrame satisfies). -/
theorem c4_roundtrip (data : DataFrame) (filename : String) (fs : FS)
    (hwf : wfJson (Json.arr data.to_dict_records) = true)
    (hnd : data.fields.Nodup) :
    ∃ content, (save_to_json data filename fs) filename = some content ∧
      json_loads content = some (Json.arr data.to_dict_records) := by
  refine ⟨jdump (Json.arr data.to_dict_records) 0, ?_, loads_dump _ hwf⟩
  simp [save_to_json]

/-- C4, witnessed at a one-record batch. -/
theorem c4_roundtrip_witness :
    ∃ content,
      (save_to_json ⟨[strCodes "a"], [[Json.num 1]]⟩ "raw_planets.json" emptyFS)
        "raw_planets.json" = some content ∧
      json_loads content =
        some (Json.arr (DataFrame.to_dict_records ⟨[strCodes "a"], [[Json.num 1]]⟩)) :=
  c4_roundtrip ⟨[strCodes "a"], [[Json.num 1]]⟩ "raw_planets.json" emptyFS rfl
    (by simp)

/-! Claim C5. -/

/-- C5: when the upstream call for a category returns a failure status, that
category's fetch returns no batch, and a whole run of fetch_data.py leaves
that category's IntermediateFile exactly as it was — nothing is written or
modified for it, whichever category failed (the fetchers themselves are
pure; writes happen only in `main` for a category whose fetch returned a
frame). -/
theorem c5_no_write_on_failure (respP respM : HttpResponse) (fs : FS) :
    (respP.status_code ≠ 200 →
      fetch_planets respP = Except.ok none ∧
      (fetch_main respP respM fs).fs "raw_planets.json" = fs "raw_planets.json") ∧
    (respM.status_code ≠ 200 →
      fetch_moons respM = Except.ok none ∧
      (fetch_main respP respM fs).fs "raw_moons.json" = fs "raw_moons.json") := by
  constructor
  · intro h
    have hp : fetch_planets respP = Except.ok none := by simp [fetch_planets, h]
    refine ⟨hp, ?_⟩
    cases hm : fetch_moons respM with
    | error e => simp [fetch_main, hp, hm]
    | ok mdf =>
      cases mdf with
      | none => simp [fetch_main, hp, hm]
      | some dfM => simp [fetch_main, hp, hm, save_to_json]
  · intro h
    have hm : fetch_moons respM = Except.ok none := by simp [fetch_moons, h]
    refine ⟨hm, ?_⟩
    cases hp : fetch_planets respP with
    | error e => simp [fetch_main, hp]
    | ok pdf =>
      cases pdf with
      | none => simp [fetch_main, hp, hm]
      | some dfP => simp [fetch_main, hp, hm, save_to_json]

/-- C5, witnessed at the 503 response of the spec's Scenario 2, once for each
category. -/
theorem c5_no_write_on_failure_witness :
    (fetch_planets resp503 = Except.ok none ∧
     (fetch_main resp503 moonsRespEx emptyFS).fs "raw_planets.json" =
       emptyFS "raw_planets.json") ∧
    (fetch_moons resp503 = Except.ok none ∧
     (fetch_main moonsRespEx resp503 emptyFS).fs "raw_moons.json" =
       emptyFS "raw_moons.json") :=
  ⟨(c5_no_write_on_failure resp503 moonsRespEx emptyFS).1 (by decide),
   (c5_no_write_on_failure moonsRespEx resp503 emptyFS).2 (by decide)⟩

/-! Claim C6. -/

/-- C6: persisting the same batch twice to the same path is idempotent — the
file holds the identical byte content after the first and the second persist
(the serializer is a pure function of the batch). -/
theorem c6_idempotent (data : DataFrame) (filename : String) (fs : FS) :
    (save_to_json data filename fs) filename =
      some (jdump (Json.arr data.to_dict_records) 0) ∧
    (save_to_json data filename (save_to_json data filename fs)) filename =
      some (jdump (Json.arr data.to_dict_records) 0) := by
  constructor <;> simp [save_to_json]

/-! Claim C8. -/

/-- C8: persisting a batch fully replaces whatever was at the path — the
resulting content is the batch's serialization alone, identical for any two
prior filesystem states. -/
theorem c8_full_replace (data : DataFrame) (filename : String) (fs1 fs2 : FS) :
    (save_to_json data filename fs1) filename = (save_to_json data filename fs2) filename ∧
    (save_to_json data filename fs1) filename =
      some (jdump (Json.arr data.to_dict_records) 0) := by
  constructor <;> simp [save_to_json]

/-! Claim C7. -/

/-- C7: in a run that processes both categories (both fetches return a frame,
and the loader run finishes without an exception), planets precede moons at
every stage — fetch, serialize, file-read, and load-job submission all
happen for planets strictly before moons. -/
theorem c7_planets_first (respP respM : HttpResponse) (fs : FS) (dfP dfM : DataFrame)
    (wh : WarehouseOracle) (fsL : FS)
    (hp : fetch_planets respP = Except.ok (some dfP))
    (hm : fetch_moons respM = Except.ok (some dfM))
    (hl : (load_main wh fsL).err = none) :
    (fetch_main respP respM fs).events =
      [Event.fetchPlanetsCall, Event.fetchMoonsCall, Event.savePlanetsFile,
        Event.saveMoonsFile] ∧
    (load_main wh fsL).events =
      [Event.openPlanetsFile, Event.openMoonsFile, Event.submitPlanetsJob,
        Event.submitMoonsJob] ∧
    (fetch_main respP respM fs).events.indexOf Event.fetchPlanetsCall <
      (fetch_main respP respM fs).events.indexOf Event.fetchMoonsCall ∧
    (fetch_main respP respM fs).events.indexOf Event.savePlanetsFile <
      (fetch_main respP respM fs).events.indexOf Event.saveMoonsFile ∧
    (load_main wh fsL).events.indexOf Event.openPlanetsFile <
      (load_main wh fsL).events.indexOf Event.openMoonsFile ∧
    (load_main wh fsL).events.indexOf Event.submitPlanetsJob <
      (load_main wh fsL).events.indexOf Event.submitMoonsJob := by
  have hfe : (fetch_main respP respM fs).events =
      [Event.fetchPlanetsCall, Event.fetchMoonsCall, Event.savePlanetsFile,
        Event.saveMoonsFile] := by
    simp [fetch_main, hp, hm]
  have hle := load_main_ok_events wh fsL hl
  refine ⟨hfe, hle, ?_, ?_, ?_, ?_⟩ <;> first
    | (rw [hfe]; decide)
    | (rw [hle]; decide)

/-- A filesystem holding an empty-array intermediate file for each category. -/
def fsBothEmptyEx : FS := fun p =>
  if p = "raw_planets.json" then some (strCodes "[]")
  else if p = "raw_moons.json" then some (strCodes "[]")
  else none

/-- A warehouse whose every job succeeds. -/
def whOkEx : WarehouseOracle := fun _ _ => Except.ok ()

/-- C7, witnessed at a concrete run: both fetches return frames and the
loader finishes on two empty-array files. -/
theorem c7_planets_first_witness :
    (fetch_main moonsRespEx moonsRespEx emptyFS).events =
      [Event.fetchPlanetsCall, Event.fetchMoonsCall, Event.savePlanetsFile,
        Event.saveMoonsFile] ∧
    (load_main whOkEx fsBothEmptyEx).events =
      [Event.openPlanetsFile, Event.openMoonsFile, Event.submitPlanetsJob,
        Event.submitMoonsJob] ∧
    (fetch_main moonsRespEx moonsRespEx emptyFS).events.indexOf Event.fetchPlanetsCall <
      (fetch_main moonsRespEx moonsRespEx emptyFS).events.indexOf Event.fetchMoonsCall ∧
    (fetch_main moonsRespEx moonsRespEx emptyFS).events.indexOf Event.savePlanetsFile <
      (fetch_main moonsRespEx moonsRespEx emptyFS).events.indexOf Event.saveMoonsFile ∧
    (load_main whOkEx fsBothEmptyEx).events.indexOf Event.openPlanetsFile <
      (load_main whOkEx fsBothEmptyEx).events.indexOf Event.openMoonsFile ∧
    (load_main whOkEx fsBothEmptyEx).events.indexOf Event.submitPlanetsJob <
      (load_main whOkEx fsBothEmptyEx).events.indexOf Event.submitMoonsJob :=
  c7_planets_first moonsRespEx moonsRespEx emptyFS moonsDfEx moonsDfEx whOkEx
    fsBothEmptyEx (by rfl) (by rfl) (by rfl)

/-! Claim C9. -/

/-- C9: the serializer writes the two-byte text `[]` for an empty batch, and
the loader, given such files, reads them, submits a zero-row load for each
category, and the run reports success (the zero-row job's success is the
warehouse contract the spec's Scenario 4 fixes). -/
theorem c9_empty_batch (data : DataFrame) (filename : String) (fs : FS)
    (wh : WarehouseOracle) (fsl : FS)
    (hrows : data.rows = [])
    (hP : fsl "raw_planets.json" = some (strCodes "[]"))
    (hM : fsl "raw_moons.json" = some (strCodes "[]")) :
    (save_to_json data filename fs) filename = some (strCodes "[]") ∧
    load_main wh fsl = ⟨[Event.openPlanetsFile, Event.openMoonsFile,
      Event.submitPlanetsJob, Event.submitMoonsJob], some [], some [], none⟩ := by
  constructor
  · simp [save_to_json, DataFrame.to_dict_records, hrows]
    rfl
  · have hload : json_loads (strCodes "[]") = some (Json.arr []) := rfl
    simp [load_main, hP, hM, hload, bigquery_load]

/-- C9, witnessed at the empty DataFrame and the two empty-array files. -/
theorem c9_empty_batch_witness :
    (save_to_json ⟨[], []⟩ "raw_planets.json" emptyFS) "raw_planets.json" =
      some (strCodes "[]") ∧
    load_main whOkEx fsBothEmptyEx = ⟨[Event.openPlanetsFile, Event.openMoonsFile,
      Event.submitPlanetsJob, Event.submitMoonsJob], some [], some [], none⟩ :=
  c9_empty_batch ⟨[], []⟩ "raw_planets.json" emptyFS whOkEx fsBothEmptyEx rfl
    (by rfl) (by rfl)

/-! Claim C10. -/

/-- C10: load_data.py reads and parses both intermediate files before
submitting any load job, so when the moons file is missing or holds invalid
JSON, no job is submitted for either category and the run ends in an
exception — even though the planets file itself is present and valid. -/
theorem c10_no_partial_load (wh : WarehouseOracle) (fs : FS) (pj : List Nat) (pv : Json)
    (hP : fs "raw_planets.json" = some pj) (hPv : json_loads pj = some pv)
    (hMbad : ∀ t, fs "raw_moons.json" = some t → json_loads t = none) :
    Event.submitPlanetsJob ∉ (load_main wh fs).events ∧
    Event.submitMoonsJob ∉ (load_main wh fs).events ∧
    (load_main wh fs).err.isSome = true := by
  cases hM : fs "raw_moons.json" with
  | none => simp [load_main, hP, hPv, hM]
  | some t =>
    have hbad := hMbad t hM
    simp [load_main, hP, hPv, hM, hbad]

/-- A filesystem with a valid planets file and an invalid moons file. -/
def fsBadMoonsEx : FS := fun p =>
  if p = "raw_planets.json" then some (strCodes "[]")
  else if p = "raw_moons.json" then some (strCodes "nope")
  else none

/-- C10, witnessed at a valid planets file beside a moons file that is not
JSON. -/
theorem c10_no_partial_load_witness :
    Event.submitPlanetsJob ∉ (load_main whOkEx fsBadMoonsEx).events ∧
    Event.submitMoonsJob ∉ (load_main whOkEx fsBadMoonsEx).events ∧
    (load_main whOkEx fsBadMoonsEx).err.isSome = true :=
  c10_no_partial_load whOkEx fsBadMoonsEx (strCodes "[]") (Json.arr []) (by rfl) rfl
    (fun t ht => by
      have h2 : strCodes "nope" = t := by
        have := ht
        simp [fsBadMoonsEx] at this
        exact this
      rw [← h2]
      rfl)
